import Mathlib

/-!
Shallow embedding of the archive-reading core of the GPXmap repository
(src/ZipFile.ts and src/ZipCrypto.ts) and proofs about it.

Modelling conventions (JavaScript semantics):
* A byte buffer (`Uint8Array`) is a `List Nat` of values `< 256`; reading an
  out-of-range index yields `undefined` in JS, which every bitwise operator
  coerces to `0`, so out-of-range reads are modelled as `0` (`List.getD _ _ 0`).
* Writing an out-of-range index of a `Uint8Array` is silently ignored in JS;
  `outSet` below models that as a no-op.
* 32-bit wrap-around arithmetic (`>>> 0`, `Math.imul`) is modelled as `% 2^32`
  on `Nat`.  The source only compares the 32-bit reads against positive
  constants below `2^31`, where signed (JS `|`) and unsigned views agree.
* JS strings are sequences of UTF-16 code units, modelled as `List Nat`
  (`JSStr`); `String.prototype.length` is the list length.
* `TextDecoder("utf-8", { fatal: false })` is modelled by the WHATWG UTF-8
  decoder with U+FFFD replacement (`utf8Decode`).  (The `String.fromCharCode`
  polyfill branch of the source is only taken in environments without
  `TextDecoder` and is not modelled.)
* The `timestamp` field (computed via `new Date(...)`, i.e. wall-clock /
  timezone dependent) is not modelled; no claim mentions it.
-/

deriving instance DecidableEq for Except

namespace GPXmap

abbrev Bytes := List Nat

abbrev JSStr := List Nat

def U32 : Nat := 4294967296

/-- Read one byte; JS `data[i]` is `undefined` out of range, which coerces
to `0` in all the bitwise contexts where the source uses it. -/
def byteAt (data : Bytes) (i : Nat) : Nat := data.getD i 0

/-- Byte read at a possibly negative (JS) index. -/
def byteAtI (data : Bytes) (i : Int) : Nat :=
  if 0 ≤ i then data.getD i.toNat 0 else 0

/-- Source `ZipFile.getUint16` : `((data[i + 1]) << 8) | data[i]`. -/
def getUint16 (data : Bytes) (i : Nat) : Nat :=
  (byteAt data (i + 1) <<< 8) ||| byteAt data i

/-- Source `ZipFile.getUint32` : `(data[i+3] << 24) | (data[i+2] << 16) | (data[i+1] << 8) | data[i]`.
JS computes a signed 32-bit value; all comparisons in the source are against
positive magics `< 2^31`, for which the signed and this unsigned reading agree. -/
def getUint32 (data : Bytes) (i : Nat) : Nat :=
  (byteAt data (i + 3) <<< 24) ||| (byteAt data (i + 2) <<< 16) |||
    (byteAt data (i + 1) <<< 8) ||| byteAt data i

/-- Variant of `getUint32` at a possibly negative index (used by the backward EOCD scan,
whose JS loop variable can go negative). -/
def getUint32I (data : Bytes) (i : Int) : Nat :=
  (byteAtI data (i + 3) <<< 24) ||| (byteAtI data (i + 2) <<< 16) |||
    (byteAtI data (i + 1) <<< 8) ||| byteAtI data i

/-- JS `Uint8Array.subarray(offset, offset + len)` (clamping). -/
def slice (data : Bytes) (offset len : Nat) : Bytes :=
  (data.drop offset).take len

/-- JS `Uint8Array` element write: out-of-range writes are silently ignored. -/
def outSet (buf : List Nat) (i v : Nat) : List Nat :=
  if i < buf.length then buf.set i v else buf

/-! ### WHATWG UTF-8 decoder (TextDecoder "utf-8", fatal: false) -/

structure Utf8St where
  codepoint : Nat
  needed : Nat
  seen : Nat
  lower : Nat
  upper : Nat
deriving DecidableEq, Repr

def utf8Init : Utf8St := ⟨0, 0, 0, 0x80, 0xBF⟩

/-- Handle one byte in the initial decoder state: either emit a code point
(ASCII or replacement) or enter a multi-byte sequence. -/
def utf8Start (b : Nat) : List Nat × Utf8St :=
  if b ≤ 0x7F then ([b], utf8Init)
  else if 0xC2 ≤ b ∧ b ≤ 0xDF then ([], ⟨b &&& 0x1F, 1, 0, 0x80, 0xBF⟩)
  else if 0xE0 ≤ b ∧ b ≤ 0xEF then
    ([], ⟨b &&& 0xF, 2, 0, if b = 0xE0 then 0xA0 else 0x80,
          if b = 0xED then 0x9F else 0xBF⟩)
  else if 0xF0 ≤ b ∧ b ≤ 0xF4 then
    ([], ⟨b &&& 0x7, 3, 0, if b = 0xF0 then 0x90 else 0x80,
          if b = 0xF4 then 0x8F else 0xBF⟩)
  else ([0xFFFD], utf8Init)

/-- Run the decoder over the byte list, producing code points.  An invalid
continuation byte emits U+FFFD and is reprocessed in the initial state. -/
def utf8Go (st : Utf8St) : List Nat → List Nat
  | [] => if st.needed ≠ 0 then [0xFFFD] else []
  | b :: rest =>
    if st.needed = 0 then
      let s := utf8Start b
      s.1 ++ utf8Go s.2 rest
    else if st.lower ≤ b ∧ b ≤ st.upper then
      let cp := (st.codepoint <<< 6) ||| (b &&& 0x3F)
      if st.seen + 1 = st.needed then cp :: utf8Go utf8Init rest
      else utf8Go ⟨cp, st.needed, st.seen + 1, 0x80, 0xBF⟩ rest
    else
      let s := utf8Start b
      0xFFFD :: (s.1 ++ utf8Go s.2 rest)

/-- A code point as UTF-16 code units (JS string elements). -/
def cpToUtf16 (cp : Nat) : List Nat :=
  if cp < 0x10000 then [cp]
  else [0xD800 + ((cp - 0x10000) >>> 10), 0xDC00 + ((cp - 0x10000) &&& 0x3FF)]

/-- Source `ZipFile.convertUint8ArrayToUtf8` via `TextDecoder`: the decoded JS string
as its UTF-16 code-unit sequence. -/
def utf8Decode (data : Bytes) : JSStr :=
  ((utf8Go utf8Init data).map cpToUtf16).flatten

/-! ### ZipCrypto (src/ZipCrypto.ts) -/

/-- One step of the CRC-32 table computation
(`c = (c & 1) ? (0xedb88320 ^ (c >>> 1)) : (c >>> 1)`). -/
def crcByteStep (c : Nat) : Nat :=
  if c &&& 1 = 1 then 0xEDB88320 ^^^ (c >>> 1) else c >>> 1

/-- Table entry `crcTable[i]`: eight `crcByteStep` rounds on `i` (the lazily built table
entry, modelled as a function of the index). -/
def crcByte (i : Nat) : Nat := crcByteStep^[8] i

/-- Source `ZipCrypto.crc32` : `((crc >>> 8) ^ crcTable[(crc ^ c) & 0xff]) >>> 0`. -/
def crc32 (crc c : Nat) : Nat :=
  ((crc % U32) >>> 8) ^^^ crcByte ((crc ^^^ c) &&& 0xFF)

structure Keys where
  k0 : Nat
  k1 : Nat
  k2 : Nat
deriving DecidableEq, Repr

/-- Source `ZipCrypto.updateKeys` (with `>>> 0` and `Math.imul` as `% 2^32`). -/
def updateKeys (k : Keys) (c : Nat) : Keys :=
  let k0 := crc32 k.k0 c
  let s := (k.k1 + (k0 &&& 0xFF)) % U32
  let k1 := ((s * 134775813) % U32 + 1) % U32
  let k2 := crc32 k.k2 ((k1 >>> 24) &&& 0xFF)
  ⟨k0, k1, k2⟩

/-- Source `ZipCrypto.initKeys`. -/
def initKeys (password : JSStr) : Keys :=
  password.foldl updateKeys ⟨0x12345678, 0x23456789, 0x34567890⟩

/-- Source `ZipCrypto.decryptByte`: returns the plaintext byte and the updated keys
(the keys are fed the decrypted byte). -/
def decryptByte (k : Keys) (c : Nat) : Nat × Keys :=
  let temp := (k.k2 ||| 2) % U32
  let d := c ^^^ ((((temp * (temp ^^^ 1)) % U32) >>> 8) &&& 0xFF)
  (d, updateKeys k d)

/-- Decrypt a byte sequence, threading the key state. -/
def decryptSeq (k : Keys) : Bytes → Bytes × Keys
  | [] => ([], k)
  | c :: cs =>
    let p := decryptByte k c
    let r := decryptSeq p.2 cs
    (p.1 :: r.1, r.2)

/-! ### Errors

The source throws `Error` objects with message strings; the spec names these
errors.  One constructor per distinct throw site / spec error:
`eocdNotFound` = ArchiveTruncated ("File ended abruptly: EOCD not found"),
`badCdfhSignature` = CorruptDirectory ("Bad CDFH signature"),
`entryNameMissing` = MissingEntryName ("Zip Entry name missing"),
`strongEncryption` / `strongDirEncryption` / `compressionMethodNotSupported`
= UnsupportedFeature, `fileNotFound` = EntryNotFound,
`passwordRequired` = PasswordRequired,
`passwordMismatch` = WrongPassword ("The password did not match"),
`dataOverflow` / `badLength` / … = CorruptBlock / CorruptStream,
`rangeError` = the JS `RangeError` from `new Uint8Array(negative)`,
`fuelOut` = artefact of the fuelled loops in this model (the JS loops
terminate within the fuel supplied below, or hang on NaN-poisoned paths
never reached by the claims). -/

inductive ZipError where
  | eocdNotFound
  | badCdfhSignature
  | entryNameMissing
  | strongEncryption
  | strongDirEncryption
  | dataOverflow
  | badLength
  | codeOverflow
  | lengthCodesIncomplete
  | repeatNoFirst
  | moreLengths
  | badCodes
  | invalidLengthDistance
  | distanceOutOfRange
  | unsupportedCompressionType
  | fileNotFound
  | passwordRequired
  | passwordMismatch
  | compressionMethodNotSupported
  | rangeError
  | fuelOut
deriving DecidableEq, Repr

/-! ### Central directory data model (src/ZipFile.ts) -/

/-- Source `CentralDirFileHeader` (the `timestamp` field is omitted: the source
computes it from `new Date(...)`, which is wall-clock/timezone dependent and
not mentioned by any claim). -/
structure Cdfh where
  signature : Nat
  version : Nat
  flag : Nat
  compressionMethod : Nat
  modificationTime : Nat
  crc : Nat
  compressedSize : Nat
  size : Nat
  fileNameLength : Nat
  extraFieldLength : Nat
  fileCommentLength : Nat
  localOffset : Nat
  name : JSStr
  isDirectory : Bool
  extra : Bytes
  comment : JSStr
  dataStart : Nat
deriving DecidableEq, Repr

structure Eocd where
  signature : Nat
  entries : Nat
  cdfhOffset : Nat
  cdSize : Nat
deriving DecidableEq, Repr

def eocdSignature : Nat := 0x06054B50
def cdfhSignature : Nat := 0x02014B50
def lfhSignature : Nat := 0x04034B50

/-- Source `ZipFile.readEocd`. -/
def readEocd (data : Bytes) (pos : Nat) : Eocd :=
  ⟨getUint32 data pos, getUint16 data (pos + 10),
    getUint32 data (pos + 16), getUint32 data (pos + 20)⟩

/-- Source `ZipFile.readCdfh` (the fields "set later" start at their defaults). -/
def readCdfh (data : Bytes) (pos : Nat) : Cdfh where
  signature := getUint32 data pos
  version := getUint16 data (pos + 6)
  flag := getUint16 data (pos + 8)
  compressionMethod := getUint16 data (pos + 10)
  modificationTime := getUint16 data (pos + 12)
  crc := getUint32 data (pos + 16)
  compressedSize := getUint32 data (pos + 20)
  size := getUint32 data (pos + 24)
  fileNameLength := getUint16 data (pos + 28)
  extraFieldLength := getUint16 data (pos + 30)
  fileCommentLength := getUint16 data (pos + 32)
  localOffset := getUint32 data (pos + 42)
  name := []
  isDirectory := false
  extra := []
  comment := []
  dataStart := 0

/-- The backward EOCD scan of `readZipDirectory`.  JS:
`while (i >= n) { i -= 1; if (getUint32(data, i) === eocdSignature) { eocd = readEocd(i); if (getUint32(data, eocd.cdfhOffset) === cdfhSignature) break; } }`.
Note that `eocd` stays assigned even when the central-directory check fails,
exactly as in the source. -/
def findEocdGo (data : Bytes) : Nat → Int → Option Eocd → Option Eocd
  | 0, _, acc => acc
  | fuel + 1, i, acc =>
    let i' := i - 1
    if getUint32I data i' = eocdSignature then
      let e := readEocd data i'.toNat
      if getUint32 data e.cdfhOffset = cdfhSignature then some e
      else findEocdGo data fuel i' (some e)
    else findEocdGo data fuel i' acc

/-- The EOCD search: scan backward from `data.length - eocdLen + 1`, bounded
by the maximal comment length `0xffff`.  The loop runs `i + 1 - n` times
(when positive); that count is supplied as the structural fuel, making the
fuelled loop exactly the JS loop. -/
def findEocd (data : Bytes) : Option Eocd :=
  let start : Int := (data.length : Int) - 22 + 1
  let n : Int := max 0 (start - 0xFFFF)
  findEocdGo data (start + 1 - n).toNat start none

/-- Source `readAsUTF8`. -/
def readAsUTF8 (data : Bytes) (offset len : Nat) : JSStr :=
  utf8Decode (slice data offset len)

/-- The central-directory walk of `readZipDirectory`: parse `k` consecutive
headers starting at `offset`, accumulating the entry table in insertion
order.  (The LFH-signature check of the source only logs to the console and
has no effect on the result; it is not modelled.) -/
def processEntries (data : Bytes) : Nat → Nat → List (JSStr × Cdfh) →
    Except ZipError (List (JSStr × Cdfh))
  | 0, _, acc => .ok acc
  | k + 1, offset, acc =>
    let cdfh := readCdfh data offset
    if cdfh.signature ≠ cdfhSignature then .error .badCdfhSignature
    else if cdfh.fileNameLength = 0 then .error .entryNameMissing
    else
      let o1 := offset + 46
      let name := readAsUTF8 data o1 cdfh.fileNameLength
      let o2 := o1 + cdfh.fileNameLength
      let isDir : Bool := name.getLast? = some 47
      let extra := slice data o2 cdfh.extraFieldLength
      let o3 := o2 + cdfh.extraFieldLength
      let comment := readAsUTF8 data o3 cdfh.fileCommentLength
      let o4 := o3 + cdfh.fileCommentLength
      if cdfh.flag &&& 0x40 = 0x40 then .error .strongEncryption
      else if cdfh.flag &&& 0x2000 = 0x2000 then .error .strongDirEncryption
      else
        let lfhExtra := getUint16 data (cdfh.localOffset + 28)
        let cdfh' := { cdfh with
          name := name, isDirectory := isDir, extra := extra,
          comment := comment,
          dataStart := cdfh.localOffset + 30 + name.length + lfhExtra }
        processEntries data k o4 (acc ++ [(name, cdfh')])

/-- Source `ZipFile.readZipDirectory`. -/
def readZipDirectory (data : Bytes) : Except ZipError (List (JSStr × Cdfh)) :=
  match findEocd data with
  | none => .error .eocdNotFound
  | some eocd => processEntries data eocd.entries eocd.cdfhOffset []

/-- Lookup in the entry table; JS object assignment means the last entry with
a given name wins. -/
def tableLookup (table : List (JSStr × Cdfh)) (name : JSStr) : Option Cdfh :=
  (table.filterMap fun p => if p.1 = name then some p.2 else none).getLast?

/-- The check value of `ZipCrypto.decrypt`: MSB of the DOS time if flag bit 3
is set, else MSB of the stored CRC-32.  (JS `crc >> 24` is an arithmetic
shift on the signed 32-bit view, but `& 0xff` makes it equal to the unsigned
top byte used here.) -/
def checkByteOf (cdfh : Cdfh) : Nat :=
  if cdfh.flag &&& 0x8 ≠ 0 then (cdfh.modificationTime >>> 8) &&& 0xFF
  else (cdfh.crc >>> 24) &&& 0xFF

/-- Source `ZipCrypto.decrypt`: decrypt the 12-byte verification header (reading
`data[0..11]`, `0` beyond the end as in JS), compare byte 11 with the check
value, then decrypt the rest.  `new Uint8Array(data.length - 12)` throws a
`RangeError` in JS when `data.length < 12`; that happens after the header
check, hence the order of the branches. -/
def decrypt (data : Bytes) (cdfh : Cdfh) (password : JSStr) :
    Except ZipError Bytes :=
  let keys := initKeys password
  let hdr := decryptSeq keys ((List.range 12).map (byteAt data))
  if hdr.1.getD 11 0 ≠ checkByteOf cdfh then .error .passwordMismatch
  else if data.length < 12 then .error .rangeError
  else .ok (decryptSeq hdr.2 (data.drop 12)).1

/-! ### Inflate engine (ZipFile.inflate)

`data` and `bufEnd = offset + compressedSize` are fixed throughout; the
mutable locals `inCnt` / `bitCnt` / `bitBuf` form `BitSt`, and
`outCnt` / `outBuf` form `OutSt`.  `lens` entries are `Option Nat` because the
JS code can store `null` (an `fnDecode` miss) in the `lens` array. -/

structure BitSt where
  inCnt : Nat
  bitCnt : Nat
  bitBuf : Nat
deriving DecidableEq, Repr

structure OutSt where
  outCnt : Nat
  outBuf : List Nat
deriving DecidableEq, Repr

structure CodeT where
  count : List Nat
  symbol : List Nat
deriving DecidableEq, Repr

/-- The accumulation loop of `fnBits`:
`while (bitCnt < need) { if (inCnt === bufEnd) throw; out |= data[inCnt] << bitCnt; inCnt += 1; bitCnt += 8; }`. -/
def fnBitsGo (data : Bytes) (bufEnd need : Nat) :
    Nat → Nat → Nat → Nat → Except ZipError (Nat × Nat × Nat)
  | 0, out, inCnt, bitCnt => .ok (out, inCnt, bitCnt)
  | fuel + 1, out, inCnt, bitCnt =>
    if bitCnt < need then
      if inCnt = bufEnd then .error .dataOverflow
      else fnBitsGo data bufEnd need fuel
        (out ||| (byteAt data inCnt <<< bitCnt)) (inCnt + 1) (bitCnt + 8)
    else .ok (out, inCnt, bitCnt)

/-- Source `fnBits`: return `need` bits (LSB first) and the updated bit state.
The accumulation loop adds 8 to `bitCnt` per iteration, so it runs at most
`need` times; fuel `need` therefore reproduces the JS loop exactly (when the
fuel is exhausted the loop condition is already false). -/
def fnBits (data : Bytes) (bufEnd need : Nat) (st : BitSt) :
    Except ZipError (Nat × BitSt) :=
  match fnBitsGo data bufEnd need need st.bitBuf st.inCnt st.bitCnt with
  | .error e => .error e
  | .ok (out, inCnt, bitCnt) =>
    .ok (out &&& ((1 <<< need) - 1), ⟨inCnt, bitCnt - need, out >>> need⟩)

/-- The 15-round loop of `fnDecode`; `none` models the JS `return null` when
no code of length ≤ 15 matches.  (`codes.symbol` is read within the densely
written prefix for every table the source builds, so the `getD` default is
never taken.) -/
def fnDecodeGo (data : Bytes) (bufEnd : Nat) (codes : CodeT) :
    Nat → Nat → Nat → Nat → Nat → BitSt → Except ZipError (Option Nat × BitSt)
  | 0, _, _, _, _, st => .ok (none, st)
  | fuel + 1, j, code, first, i, st =>
    match fnBits data bufEnd 1 st with
    | .error e => .error e
    | .ok (b, st') =>
      let code' := code ||| b
      let count := codes.count.getD j 0
      if code' < first + count then
        .ok (some (codes.symbol.getD (i + (code' - first)) 0), st')
      else
        fnDecodeGo data bufEnd codes fuel (j + 1) (code' <<< 1)
          ((first + count) <<< 1) (i + count) st'

/-- Source `fnDecode`: the `for (j = 1; j <= 0xF; ...)` loop runs exactly 15 rounds
(fuel 15, `j` starting at 1); exhausted fuel is the JS `return null`. -/
def fnDecode (data : Bytes) (bufEnd : Nat) (codes : CodeT) (st : BitSt) :
    Except ZipError (Option Nat × BitSt) :=
  fnDecodeGo data bufEnd codes 15 1 0 0 0 st

/-! #### Huffman code construction (`fnInflateConstruct`) -/

/-- Array element write that extends the list when needed (JS arrays grow on
out-of-range writes; intermediate holes are `undefined`, modelled `0` — every
table the source builds is written densely, so holes are never read). -/
def listSetD (l : List Nat) (i v : Nat) : List Nat :=
  if i < l.length then l.set i v
  else l ++ List.replicate (i - l.length) 0 ++ [v]

/-- Loop `for (i = 0; i <= 0xF; i += 1) codes.count[i] = 0;` on the existing
count array. -/
def zeroCount16 (cnt : List Nat) : List Nat :=
  (List.range 16).foldl (fun c i => listSetD c i 0) cnt

/-- Loop `for (i = 0; i < n; i += 1) codes.count[lens2[i]] += 1;`.
A `null`/`undefined` entry indexes a non-numeric property in JS and leaves
every numeric slot unchanged. -/
def buildCount (lens2 : List (Option Nat)) (n : Nat) (cnt : List Nat) :
    List Nat :=
  (List.range n).foldl
    (fun c i =>
      match lens2.getD i none with
      | some l => listSetD c l (c.getD l 0 + 1)
      | none => c)
    cnt

/-- Loop `left = 1; for (i = 1; i <= 0xF; i += 1) { left = (left << 1) - count[i]; if (left < 0) return left; }` -/
def leftGo (cnt : List Nat) : Nat → Nat → Int → Int
  | 0, _, left => left
  | fuel + 1, i, left =>
    let left' := left * 2 - (cnt.getD i 0 : Int)
    if left' < 0 then left' else leftGo cnt fuel (i + 1) left'

/-- Loop `offs[1] = 0; for (i = 1; i < 0xF; i += 1) offs[i + 1] = offs[i] + count[i];`
(`offs[0]` is never read). -/
def buildOffs (cnt : List Nat) : List Nat :=
  (List.range 14).foldl
    (fun offs i => listSetD offs (i + 2) (offs.getD (i + 1) 0 + cnt.getD (i + 1) 0))
    (List.replicate 16 0)

/-- The symbol-assignment loop.  In JS a `null`/`undefined` length, or a
length `> 15` (whose `offs` entry is `undefined`), writes only non-numeric
properties; only lengths `1..15` touch the numeric symbol table. -/
def buildSymbol (lens2 : List (Option Nat)) (n : Nat) (offs sym : List Nat) :
    List Nat × List Nat :=
  (List.range n).foldl
    (fun so i =>
      match lens2.getD i none with
      | some l =>
        if 1 ≤ l ∧ l ≤ 15 then
          (listSetD so.1 (so.2.getD l 0) i, listSetD so.2 l (so.2.getD l 0 + 1))
        else so
      | none => so)
    (sym, offs)

/-- Source `ZipFile.fnInflateConstruct`: returns the `left` value and the updated
code table. -/
def fnInflateConstruct (codes : CodeT) (lens2 : List (Option Nat)) (n : Nat) :
    Int × CodeT :=
  let cnt := buildCount lens2 n (zeroCount16 codes.count)
  if cnt.getD 0 0 = n then (0, { codes with count := cnt })
  else
    let left := leftGo cnt 15 1 1
    if left < 0 then (left, { codes with count := cnt })
    else
      let so := buildSymbol lens2 n (buildOffs cnt) codes.symbol
      (left, ⟨cnt, so.1⟩)

/-- Array element write for the `lens` array (entries `Option Nat`, holes
modelled `none` = JS `undefined`; all reachable writes are dense). -/
def listSetDO (l : List (Option Nat)) (i : Nat) (v : Option Nat) :
    List (Option Nat) :=
  if i < l.length then l.set i v
  else l ++ List.replicate (i - l.length) none ++ [v]

/-- Source `ZipFile.fnConstructFixedHuffman`: write the fixed code lengths into
`lens` and build both tables.  Returns (lens, lenCode, distCode). -/
def fnConstructFixedHuffman (lens : List (Option Nat)) (lenCode distCode : CodeT) :
    List (Option Nat) × CodeT × CodeT :=
  let l1 := (List.range 0x90).foldl (fun l s => listSetDO l s (some 8)) lens
  let l2 := (List.range 0x70).foldl (fun l s => listSetDO l (0x90 + s) (some 9)) l1
  let l3 := (List.range 0x18).foldl (fun l s => listSetDO l (0x100 + s) (some 7)) l2
  let l4 := (List.range 0x8).foldl (fun l s => listSetDO l (0x118 + s) (some 8)) l3
  let lenCode' := (fnInflateConstruct lenCode l4 0x120).2
  let l5 := (List.range 0x1E).foldl (fun l s => listSetDO l s (some 5)) l4
  let distCode' := (fnInflateConstruct distCode l5 0x1E).2
  (l5, lenCode', distCode')

/-! #### Stored blocks -/

/-- The copy loop of `fnInflateStored`:
`while (len) { outBuf[outCnt] = data[inCnt]; outCnt += 1; inCnt += 1; len -= 1; }`.
Returns (inCnt, outSt). -/
def storedCopy (data : Bytes) : Nat → Nat → OutSt → Nat × OutSt
  | 0, inCnt, ost => (inCnt, ost)
  | len + 1, inCnt, ost =>
    storedCopy data len (inCnt + 1)
      ⟨ost.outCnt + 1, outSet ost.outBuf ost.outCnt (byteAt data inCnt)⟩

/-- Source `fnInflateStored`.  Here `~len & 0xFF` on a 16-bit `len` is
`0xFF ^^^ (len &&& 0xFF)`, and `(~len >> 8) & 0xFF` is
`0xFF ^^^ ((len >>> 8) &&& 0xFF)`. -/
def fnInflateStored (data : Bytes) (bufEnd : Nat) (st : BitSt) (ost : OutSt) :
    Except ZipError (BitSt × OutSt) :=
  let inCnt := st.inCnt
  if inCnt + 4 > bufEnd then .error .dataOverflow
  else
    let len := getUint16 data inCnt
    let inCnt := inCnt + 2
    if byteAt data inCnt ≠ 0xFF ^^^ (len &&& 0xFF) ∨
        byteAt data (inCnt + 1) ≠ 0xFF ^^^ ((len >>> 8) &&& 0xFF) then
      .error .badLength
    else
      let inCnt := inCnt + 2
      if inCnt + len > bufEnd then .error .dataOverflow
      else
        let r := storedCopy data len inCnt ost
        .ok (⟨r.1, 0, 0⟩, r.2)

/-! #### Dynamic Huffman construction -/

/-- Loop `for (i = 0; i < nCode; i += 1) lens[order[i]] = fnBits(3);` followed by
zeroing the remaining code-length slots; the two loops together run exactly
19 rounds (`nCode ≤ 19`), supplied as the structural fuel. -/
def dynHeaderLens (data : Bytes) (bufEnd : Nat) (order : List Nat)
    (nCode : Nat) : Nat → Nat → List (Option Nat) → BitSt →
    Except ZipError (List (Option Nat) × BitSt)
  | 0, _, lens, st => .ok (lens, st)
  | fuel + 1, i, lens, st =>
    if i < nCode then
      match fnBits data bufEnd 3 st with
      | .error e => .error e
      | .ok (b, st') =>
        dynHeaderLens data bufEnd order nCode fuel (i + 1)
          (listSetDO lens (order.getD i 0) (some b)) st'
    else
      dynHeaderLens data bufEnd order nCode fuel (i + 1)
        (listSetDO lens (order.getD i 0) (some 0)) st

/-- The code-length expansion loop of `fnConstructDynamicHuffman`.
A `null` decode result satisfies the JS test `symbol < 16`
(`ToNumber(null) = 0`) and is stored in `lens` as `none`. -/
def dynLensGo (data : Bytes) (bufEnd : Nat) (lenCode : CodeT) (total : Nat) :
    Nat → Nat → List (Option Nat) → BitSt →
    Except ZipError (List (Option Nat) × BitSt)
  | 0, _, lens, st => .ok (lens, st)
  | fuel + 1, i, lens, st =>
    if i < total then
      match fnDecode data bufEnd lenCode st with
      | .error e => .error e
      | .ok (none, st') =>
        dynLensGo data bufEnd lenCode total fuel (i + 1) (listSetDO lens i none) st'
      | .ok (some s, st') =>
        if s < 16 then
          dynLensGo data bufEnd lenCode total fuel (i + 1)
            (listSetDO lens i (some s)) st'
        else if s = 16 then
          if i = 0 then .error .repeatNoFirst
          else
            match fnBits data bufEnd 2 st' with
            | .error e => .error e
            | .ok (b, st'') =>
              if i + (3 + b) > total then .error .moreLengths
              else
                dynLensGo data bufEnd lenCode total fuel (i + (3 + b))
                  ((List.range (3 + b)).foldl
                    (fun l j => listSetDO l (i + j) (lens.getD (i - 1) none)) lens)
                  st''
        else if s = 17 then
          match fnBits data bufEnd 3 st' with
          | .error e => .error e
          | .ok (b, st'') =>
            if i + (3 + b) > total then .error .moreLengths
            else
              dynLensGo data bufEnd lenCode total fuel (i + (3 + b))
                ((List.range (3 + b)).foldl
                  (fun l j => listSetDO l (i + j) (some 0)) lens)
                st''
        else
          match fnBits data bufEnd 7 st' with
          | .error e => .error e
          | .ok (b, st'') =>
            if i + (11 + b) > total then .error .moreLengths
            else
              dynLensGo data bufEnd lenCode total fuel (i + (11 + b))
                ((List.range (11 + b)).foldl
                  (fun l j => listSetDO l (i + j) (some 0)) lens)
                st''
    else .ok (lens, st)

/-- Source `fnConstructDynamicHuffman`: returns the two code tables and the bit
state after the block header. -/
def fnConstructDynamicHuffman (data : Bytes) (bufEnd : Nat) (st : BitSt) :
    Except ZipError (CodeT × CodeT × BitSt) :=
  let order := [16, 17, 18, 0, 8, 7, 9, 6, 10, 5, 11, 4, 12, 3, 13, 2, 14, 1, 15]
  match fnBits data bufEnd 5 st with
  | .error e => .error e
  | .ok (b1, st1) =>
    let nLen := b1 + 257
    match fnBits data bufEnd 5 st1 with
    | .error e => .error e
    | .ok (b2, st2) =>
      let nDist := b2 + 1
      match fnBits data bufEnd 4 st2 with
      | .error e => .error e
      | .ok (b3, st3) =>
        let nCode := b3 + 4
        if nLen > 0x11E ∨ nDist > 0x1E then .error .codeOverflow
        else
          match dynHeaderLens data bufEnd order nCode 19 0 [] st3 with
          | .error e => .error e
          | .ok (lens, st4) =>
            let c1 := fnInflateConstruct ⟨[], []⟩ lens 19
            if c1.1 ≠ 0 then .error .lengthCodesIncomplete
            else
              match dynLensGo data bufEnd c1.2 (nLen + nDist) (nLen + nDist) 0 lens st4 with
              | .error e => .error e
              | .ok (lens', st5) =>
                let r1 := fnInflateConstruct c1.2 lens' nLen
                let r2 := fnInflateConstruct ⟨[], []⟩ (lens'.drop nLen) nDist
                if (r1.1 < 0 ∨ (r1.1 > 0 ∧ nLen - (r1.2.count.getD 0 0) ≠ 1)) ∨
                    (r2.1 < 0 ∨ (r2.1 > 0 ∧ nDist - (r2.2.count.getD 0 0) ≠ 1)) then
                  .error .badCodes
                else .ok (r1.2, r2.2, st5)

/-! #### Huffman inflation -/

def startLens : List Nat :=
  [3, 4, 5, 6, 7, 8, 9, 10, 11, 13] ++
    [15, 17, 19, 23, 27, 31, 35, 43, 51, 59] ++
    [67, 83, 99, 115, 131, 163, 195, 227, 258]

def lExt : List Nat :=
  [0, 0, 0, 0, 0, 0, 0, 0, 1, 1] ++ [1, 1, 2, 2, 2, 2, 3, 3, 3, 3] ++
    [4, 4, 4, 4, 5, 5, 5, 5, 0]

def dists : List Nat :=
  [1, 2, 3, 4, 5, 7, 9, 13, 17, 25] ++
    [33, 49, 65, 97, 129, 193, 257, 385, 513, 769] ++
    [1025, 1537, 2049, 3073, 4097, 6145, 8193, 12289, 16385, 24577]

def dExt : List Nat :=
  [0, 0, 0, 0, 1, 1, 2, 2, 3, 3] ++ [4, 4, 5, 5, 6, 6, 7, 7, 8, 8] ++
    [9, 9, 10, 10, 11, 11, 12, 12, 13, 13]

/-- JS `ToNumber` of a decode result in a relational comparison:
`null` coerces to `0`. -/
def toNum : Option Nat → Nat
  | none => 0
  | some n => n

/-- The back-reference copy:
`while (len) { outBuf[outCnt] = outBuf[outCnt - dist]; len -= 1; outCnt += 1; }`.
Reading an out-of-range source index yields `undefined` → the `Uint8Array`
write stores `0`. -/
def lzCopy (dist : Nat) : Nat → OutSt → OutSt
  | 0, ost => ost
  | len + 1, ost =>
    lzCopy dist len
      ⟨ost.outCnt + 1,
        outSet ost.outBuf ost.outCnt (ost.outBuf.getD (ost.outCnt - dist) 0)⟩

/-- The same copy loop when the distance symbol decoded to `null`: in JS
`dist` is then `NaN`, `outBuf[outCnt - NaN]` is `undefined`, and the write
stores `0` — the loop writes `len` zero bytes. -/
def lzCopyNaN : Nat → OutSt → OutSt
  | 0, ost => ost
  | len + 1, ost => lzCopyNaN len ⟨ost.outCnt + 1, outSet ost.outBuf ost.outCnt 0⟩

/-- The `symbol > 256` (back-reference) branch of one `fnInflateHuffmann`
iteration, acting on the state after the length symbol was decoded:
`symbol -= 257`, range check, length extra bits, distance symbol, distance
extra bits, range check, overlapped copy.  Returns the decoded distance
symbol (against which the JS loop condition `symbol !== 256` is then
tested) along with the new bit and output states.  When the distance symbol
decodes to `null`, JS computes `dist = dists[null] + fnBits(dExt[null]) =
NaN`; `NaN > outCnt` is false and the copy loop then writes `len` zero
bytes (`outBuf[outCnt - NaN]` is `undefined`).  The JS `fnBits(undefined)`
call consumes no input but sets `bitCnt` to `NaN`, poisoning later reads;
the claims never reach that branch and the poisoning is not modelled (the
bit state is left unchanged). -/
def fnBackref (data : Bytes) (bufEnd : Nat) (distCode : CodeT) (s : Nat)
    (st1 : BitSt) (ost1 : OutSt) : Except ZipError (Option Nat × BitSt × OutSt) :=
  if s > 28 then .error .invalidLengthDistance
  else
    match fnBits data bufEnd (lExt.getD s 0) st1 with
    | .error e => .error e
    | .ok p =>
      let len := startLens.getD s 0 + p.1
      match fnDecode data bufEnd distCode p.2 with
      | .error e => .error e
      | .ok q =>
        match q.1 with
        | some ds =>
          match fnBits data bufEnd (dExt.getD ds 0) q.2 with
          | .error e => .error e
          | .ok p2 =>
            let dist := dists.getD ds 0 + p2.1
            if dist > ost1.outCnt then .error .distanceOutOfRange
            else .ok (some ds, p2.2, lzCopy dist len ost1)
        | none => .ok (none, q.2, lzCopyNaN len ost1)

/-- One iteration of the `fnInflateHuffmann` do-while body: decode a
literal/length symbol; a `null` result satisfies `symbol < 256` (writing
byte `0`, since `ToNumber(null) = 0`), fails `symbol > 256`, fails
`symbol !== 256` — exactly the JS coercions.  `.inr` is the loop exit (the
final `symbol` strictly equals 256), `.inl` continues. -/
def huffStep (data : Bytes) (bufEnd : Nat) (lenCode distCode : CodeT)
    (st : BitSt) (ost : OutSt) :
    Except ZipError ((BitSt × OutSt) ⊕ (BitSt × OutSt)) :=
  match fnDecode data bufEnd lenCode st with
  | .error e => .error e
  | .ok p =>
    let r := p.1
    let ost1 : OutSt := if toNum r < 256 then
        ⟨ost.outCnt + 1, outSet ost.outBuf ost.outCnt (toNum r)⟩
      else ost
    if toNum r > 256 then
      match fnBackref data bufEnd distCode (toNum r - 257) p.2 ost1 with
      | .error e => .error e
      | .ok q =>
        if q.1 = some 256 then .ok (.inr (q.2.1, q.2.2))
        else .ok (.inl (q.2.1, q.2.2))
    else if r = some 256 then .ok (.inr (p.2, ost1))
    else .ok (.inl (p.2, ost1))

/-- Source `fnInflateHuffmann`, fuelled: iterate `huffStep` until it exits or
errors. -/
def fnInflateHuffmannGo (data : Bytes) (bufEnd : Nat) (lenCode distCode : CodeT) :
    Nat → BitSt → OutSt → Except ZipError (BitSt × OutSt)
  | 0, _, _ => .error .fuelOut
  | fuel + 1, st, ost =>
    match huffStep data bufEnd lenCode distCode st ost with
    | .error e => .error e
    | .ok q =>
      match q with
      | .inl c => fnInflateHuffmannGo data bufEnd lenCode distCode fuel c.1 c.2
      | .inr d => .ok d

/-! #### The block loop -/

/-- One block body of the `do … while (!last)` loop: dispatch on the 2-bit
block type (`00` stored, `01` fixed Huffman over fresh tables, `10` dynamic
Huffman, `11` invalid). -/
def inflateBlock (data : Bytes) (bufEnd ty : Nat) (st2 : BitSt) (ost : OutSt) :
    Except ZipError (BitSt × OutSt) :=
  if ty = 0 then fnInflateStored data bufEnd st2 ost
  else if ty = 1 then
    let f := fnConstructFixedHuffman [] ⟨[], []⟩ ⟨[], []⟩
    fnInflateHuffmannGo data bufEnd f.2.1 f.2.2 (8 * bufEnd + 8) st2 ost
  else if ty = 2 then
    match fnConstructDynamicHuffman data bufEnd st2 with
    | .error e => .error e
    | .ok r => fnInflateHuffmannGo data bufEnd r.1 r.2.1 (8 * bufEnd + 8) r.2.2 ost
  else .error .unsupportedCompressionType

/-- The `do { last = fnBits(1); type = fnBits(2); ... } while (!last)` loop
of `inflate`, fuelled generously (each iteration consumes ≥ 3 bits of the
finite input, so the JS loop terminates within this budget). -/
def inflateGo (data : Bytes) (bufEnd : Nat) :
    Nat → BitSt → OutSt → Except ZipError OutSt
  | 0, _, _ => .error .fuelOut
  | fuel + 1, st, ost =>
    match fnBits data bufEnd 1 st with
    | .error e => .error e
    | .ok p =>
      match fnBits data bufEnd 2 p.2 with
      | .error e => .error e
      | .ok p2 =>
        match inflateBlock data bufEnd p2.1 p2.2 ost with
        | .error e => .error e
        | .ok b =>
          if p.1 ≠ 0 then .ok b.2
          else inflateGo data bufEnd fuel b.1 b.2

/-- Source `ZipFile.inflate(data, offset, compressedSize, finalSize)`. -/
def inflate (data : Bytes) (offset compressedSize finalSize : Nat) :
    Except ZipError (List Nat) :=
  let bufEnd := offset + compressedSize
  match inflateGo data bufEnd (8 * bufEnd + 8) ⟨offset, 0, 0⟩
      ⟨0, List.replicate finalSize 0⟩ with
  | .error e => .error e
  | .ok ost => .ok ost.outBuf

/-! ### Entry extraction and the archive sniff -/

/-- Source `ZipFile.readBinaryData(name, password?)`.  `ZipCrypto.isEncrypted` is
`cdfh.flag & 1` (truthy test); `if (!password)` is true for an absent *or
empty* password string. -/
def readBinaryData (data : Bytes) (table : List (JSStr × Cdfh)) (name : JSStr)
    (password : Option JSStr) : Except ZipError Bytes :=
  match tableLookup table name with
  | none => .error .fileNotFound
  | some cdfh =>
    let fileData := slice data cdfh.dataStart cdfh.compressedSize
    let afterDecrypt : Except ZipError Bytes :=
      if cdfh.flag &&& 1 = 1 then
        match password with
        | none => .error .passwordRequired
        | some p => if p = [] then .error .passwordRequired
          else decrypt fileData cdfh p
      else .ok fileData
    match afterDecrypt with
    | .error e => .error e
    | .ok fd =>
      if cdfh.compressionMethod = 0 then .ok fd
      else if cdfh.compressionMethod = 8 then
        inflate fd 0 cdfh.compressedSize cdfh.size
      else .error .compressionMethodNotSupported

/-- Source `ZipFile.isProbablyZipFile`. -/
def isProbablyZipFile (data : Bytes) : Bool :=
  if data.length < 4 then false
  else getUint32 data 0 == lfhSignature

/-! ### Spec-side cipher definitions (for the refinement claim C5)

These two definitions transcribe the *spec's wording* of the key schedule and
of per-byte decryption, to be compared with `updateKeys` / `decryptByte`
(which transcribe the source). -/

/-- Spec wording: `key1 = ((key1 + (key0 & 0xFF)) * 134775813 + 1) mod 2^32`
with `key0` already updated, and `key2 = crc32(key2, top byte of key1)`. -/
def updateKeysSpec (k : Keys) (c : Nat) : Keys :=
  let k0 := crc32 k.k0 c
  let k1 := ((k.k1 + (k0 &&& 0xFF)) * 134775813 + 1) % U32
  let k2 := crc32 k.k2 (k1 >>> 24)
  ⟨k0, k1, k2⟩

/-- Spec wording: the keystream byte is the top byte of the low 16 bits of
`(key2 | 2) * ((key2 | 2) XOR 1)`; the plaintext byte is fed back into the
key update. -/
def decryptByteSpec (k : Keys) (c : Nat) : Nat × Keys :=
  let temp := k.k2 ||| 2
  let d := c ^^^ (((temp * (temp ^^^ 1)) &&& 0xFFFF) >>> 8)
  (d, updateKeysSpec k d)

/-- An `Except.isOk`-style helper. -/
def exceptOk {ε α : Type} : Except ε α → Bool
  | .ok _ => true
  | .error _ => false

/-! ### Concrete inputs used by the claim theorems -/

/-- A 22-byte buffer whose only EOCD-magic occurrence (at offset 0) has a
recorded central-directory offset (0) that does not carry the CDFH magic:
the EOCD magic followed by 18 zero bytes. -/
def c1buf : Bytes := [0x50, 0x4B, 0x05, 0x06] ++ List.replicate 18 0

/-- A raw DEFLATE stream: one final stored block of length 1 with correct
length complement, payload byte `0x41`. -/
def c2data : Bytes := [1, 1, 0, 0xFE, 0xFF, 0x41]

/-- An archive with one entry whose name is the two-byte UTF-8 sequence
`C3 A4` ("ä", one UTF-16 code unit): a local file header (30 bytes) at
offset 0, the CDFH (46 bytes + 2 name bytes) at offset 30, the EOCD at
offset 78; 100 bytes in total. -/
def c3buf : Bytes :=
  [0x50, 0x4B, 0x03, 0x04] ++ List.replicate 26 0 ++
  ([0x50, 0x4B, 0x01, 0x02] ++ List.replicate 24 0 ++ [2, 0] ++
    List.replicate 12 0 ++ [0, 0, 0, 0]) ++
  [0xC3, 0xA4] ++
  [0x50, 0x4B, 0x05, 0x06, 0, 0, 0, 0, 0, 0, 1, 0, 0, 0, 0, 0, 30, 0, 0, 0, 0, 0]

/-- A 26-byte buffer: a valid EOCD (entry count 1, central directory claimed
at offset 22) followed by just the 4 CDFH signature bytes — the directory is
cut short immediately after the signature. -/
def c6buf : Bytes :=
  [0x50, 0x4B, 0x05, 0x06, 0, 0, 0, 0, 0, 0, 1, 0, 0, 0, 0, 0, 22, 0, 0, 0, 0, 0,
   0x50, 0x4B, 0x01, 0x02]

/-- Ciphertext of the 13-byte plaintext `00×11, AB, 03` under password "a"
(the 12-byte verification header ends in the check byte `0xAB`, the body is
the single byte `0x03`: a final fixed-Huffman block header whose
end-of-block code needs two bits beyond this byte). -/
def c9data : Bytes := [51, 131, 79, 8, 210, 238, 114, 72, 252, 97, 56, 178, 231]

/-- Directory header for the `c9data` entry: encrypted (flag bit 0), deflated
(method 8), `compressedSize` 13 (including the 12-byte crypto header),
declared output size 0, CRC whose top byte is the check value `0xAB`. -/
def c9cdfh : Cdfh :=
  { signature := 0, version := 0, flag := 1, compressionMethod := 8,
    modificationTime := 0, crc := 0xAB000000, compressedSize := 13, size := 0,
    fileNameLength := 1, extraFieldLength := 0, fileCommentLength := 0,
    localOffset := 0, name := [98], isDirectory := false, extra := [],
    comment := [], dataStart := 0 }

/-- The Huffman table of the single symbol 0 with code length 1 (the
incomplete-code escape accepted by `fnConstructDynamicHuffman` when exactly
one length code is present): every bit pattern starting with `1` matches no
symbol. -/
def c10codes : CodeT := (fnInflateConstruct ⟨[], []⟩ [some 1] 1).2

/-- Sixteen 1-bits: `fnDecode` consumes 15 of them without a match. -/
def c10data : Bytes := [0xFF, 0xFF]

/-- The entry table of the `C9` witness archive. -/
def c9table : List (JSStr × Cdfh) := [([98], c9cdfh)]

/-- The header that parsing `c3buf` produces (name decoded to the single
UTF-16 unit `0xE4`, `dataStart` 31). -/
def c3cdfh : Cdfh :=
  { signature := 0x02014B50, version := 0, flag := 0, compressionMethod := 0,
    modificationTime := 0, crc := 0, compressedSize := 0, size := 0,
    fileNameLength := 2, extraFieldLength := 0, fileCommentLength := 0,
    localOffset := 0, name := [0xE4], isDirectory := false, extra := [],
    comment := [], dataStart := 31 }

/-- The directory parsed from `c3buf`. -/
def c3table : List (JSStr × Cdfh) := [([0xE4], c3cdfh)]

/-- Output-buffer length tracking for block results (claim C2). -/
def okOutLen : Except ZipError (BitSt × OutSt) → Nat → Prop
  | .ok (_, ost), n => ost.outBuf.length = n
  | .error _, _ => True

/-- Output-buffer length tracking for `huffStep` results. -/
def okStepLen : Except ZipError ((BitSt × OutSt) ⊕ (BitSt × OutSt)) → Nat → Prop
  | .ok (.inl c), n => c.2.outBuf.length = n
  | .ok (.inr d), n => d.2.outBuf.length = n
  | .error _, _ => True

/-- Output-buffer length tracking for `fnBackref` results. -/
def okBrLen : Except ZipError (Option Nat × BitSt × OutSt) → Nat → Prop
  | .ok t, n => t.2.2.outBuf.length = n
  | .error _, _ => True

/-- Output-buffer length tracking for `inflateGo` results. -/
def okLen1 : Except ZipError OutSt → Nat → Prop
  | .ok ost, n => ost.outBuf.length = n
  | .error _, _ => True

/-! ## Theorems -/

/-! ### Shared helper lemmas -/

theorem decryptSeq_length (k : Keys) (bs : Bytes) :
    (decryptSeq k bs).1.length = bs.length := by
  induction bs generalizing k with
  | nil => rfl
  | cons c cs ih => simp [decryptSeq, ih]

theorem byteAt_lt (data : Bytes) (hb : ∀ b ∈ data, b < 256) (i : Nat) :
    byteAt data i < 256 := by
  unfold byteAt List.getD
  rcases h : data.get? i with _ | b
  · simp [h]
  · simpa using hb b (List.get?_mem h)

theorem outSet_length (buf : List Nat) (i v : Nat) :
    (outSet buf i v).length = buf.length := by
  unfold outSet
  split <;> simp

/-- Claim C1: code bug.  The claim (and the spec) say that when every occurrence
of the EOCD magic fails the central-directory cross-check (e.g. the magic
sits in a trailing comment), `open` fails with ArchiveTruncated.  In the
code, `eocd` stays assigned after the failed check, so the `if (!eocd)`
guard does not fire: on `c1buf` (whose only magic occurrence, at offset 0,
points at a non-CDFH offset) `readZipDirectory` returns an *empty directory*
instead of the ArchiveTruncated error. -/
theorem c1_eocd_invalid_accepted :
    ((List.range 22).all fun i =>
      !(getUint32 c1buf i == eocdSignature) ||
        !(getUint32 c1buf (getUint32 c1buf (i + 16)) == cdfhSignature)) = true ∧
    getUint32 c1buf 0 = eocdSignature ∧
    readZipDirectory c1buf = .ok [] := by
  decide

/-- Claim C2, counterexample.  On the stored-block stream `c2data` the DEFLATE
payload produces one byte (`0x41`, as the run with declared size 1 shows);
with declared size 0 the write past the pre-sized buffer is silently
dropped and `inflate` succeeds with an empty buffer — no CorruptStream
error is raised, contrary to the claim. -/
theorem c2_counterexample :
    inflate c2data 0 6 1 = .ok [0x41] ∧ inflate c2data 0 6 0 = .ok [] := by
  decide

/-- Claim C3, counterexample.  Parsing `c3buf` yields one entry whose decoded
name has length 1 while `fileNameLength` is 2; the computed `dataStart` is
31 = localOffset + 30 + 1 + 0, not the claimed
localOffset + 30 + fileNameLength + lfhExtra = 32. -/
theorem c3_counterexample :
    (readZipDirectory c3buf).map (fun t => t.map fun p =>
      (p.1.length, p.2.fileNameLength, p.2.dataStart,
        p.2.localOffset + 30 + p.2.fileNameLength +
          getUint16 c3buf (p.2.localOffset + 28))) = .ok [(1, 2, 31, 32)] := by
  decide

/-- Claim C6, counterexample.  `c6buf` has a valid EOCD whose entry count (1)
walks the central directory past the end of the buffer, but the error is
`entryNameMissing` ("Zip Entry name missing"), not the claimed
`badCdfhSignature`: the four signature bytes are present, and the
out-of-range `fileNameLength` read yields 0. -/
theorem c6_counterexample :
    readZipDirectory c6buf = .error .entryNameMissing := by
  decide

theorem key1ModAux (a b m : Nat) : (a % m * b % m + 1) % m = (a * b + 1) % m :=
  ((Nat.mod_modEq (a % m * b) m).trans ((Nat.mod_modEq a m).mul_right b)).add_right 1

theorem u32_eq : U32 = 2 ^ 32 := by norm_num [U32]

theorem shr24_and_ff (x : Nat) (h : x < U32) : (x >>> 24) &&& 0xFF = x >>> 24 := by
  have hlt : x >>> 24 < 2 ^ 8 := by
    rw [Nat.shiftRight_eq_div_pow]
    rw [u32_eq] at h
    omega
  have hff : (0xFF : Nat) = 2 ^ 8 - 1 := by norm_num
  rw [hff, Nat.and_pow_two_sub_one_eq_mod]
  exact Nat.mod_eq_of_lt hlt

theorem bits8to15 (p : Nat) : ((p % U32) >>> 8) &&& 0xFF = (p &&& 0xFFFF) >>> 8 := by
  have hff : (0xFF : Nat) = 2 ^ 8 - 1 := by norm_num
  have hffff : (0xFFFF : Nat) = 2 ^ 16 - 1 := by norm_num
  rw [hff, hffff, u32_eq]
  apply Nat.eq_of_testBit_eq
  intro i
  simp only [Nat.testBit_and, Nat.testBit_shiftRight, Nat.testBit_mod_two_pow,
    Nat.testBit_two_pow_sub_one]
  by_cases h : i < 8
  · have h32 : 8 + i < 32 := by omega
    have h16 : 8 + i < 16 := by omega
    simp [h, h32, h16]
  · have h16 : ¬8 + i < 16 := by omega
    simp [h, h16]

theorem updateKeys_eq_spec (k : Keys) (c : Nat) :
    updateKeys k c = updateKeysSpec k c := by
  unfold updateKeys updateKeysSpec
  simp only
  rw [key1ModAux]
  rw [shr24_and_ff _ (Nat.mod_lt _ (by norm_num [U32]))]

/-- Claim C5: confirmed.  The source cipher (with `Math.imul`/`>>> 0` modelled as
exact 32-bit wrap-around) meets the spec wording: initial key constants
`12345678 23456789 34567890` (hex); per-character update with
`key1 = ((key1 + (key0 & 0xFF)) * 134775813 + 1) mod 2^32`; per-byte
decryption XORs the ciphertext byte with the top byte of the low 16 bits of
`(key2|2) * ((key2|2) XOR 1)`; and the keys are updated with the resulting
plaintext byte. -/
theorem c5_cipher (k : Keys) (c : Nat) (h2 : k.k2 < U32) :
    initKeys [] = ⟨0x12345678, 0x23456789, 0x34567890⟩ ∧
    (∀ pw : JSStr,
      initKeys pw = pw.foldl updateKeysSpec ⟨0x12345678, 0x23456789, 0x34567890⟩) ∧
    updateKeys k c = updateKeysSpec k c ∧
    decryptByte k c = decryptByteSpec k c ∧
    (decryptByte k c).2 = updateKeys k (decryptByte k c).1 := by
  have hu : updateKeys = updateKeysSpec :=
    funext fun k => funext fun c => updateKeys_eq_spec k c
  refine ⟨rfl, fun pw => by rw [initKeys, hu], updateKeys_eq_spec k c, ?_, rfl⟩
  unfold decryptByte decryptByteSpec
  simp only
  have htemp : (k.k2 ||| 2) % U32 = k.k2 ||| 2 := by
    apply Nat.mod_eq_of_lt
    rw [u32_eq] at h2 ⊢
    exact Nat.or_lt_two_pow h2 (by norm_num)
  rw [htemp, bits8to15, updateKeys_eq_spec]

/-- Witness for `c5_cipher` at the initial key state and character 'a'. -/
theorem c5_cipher_witness :
    initKeys [97] =
      ([97] : JSStr).foldl updateKeysSpec ⟨0x12345678, 0x23456789, 0x34567890⟩ ∧
    updateKeys ⟨0x12345678, 0x23456789, 0x34567890⟩ 97 =
      updateKeysSpec ⟨0x12345678, 0x23456789, 0x34567890⟩ 97 ∧
    decryptByte ⟨0x12345678, 0x23456789, 0x34567890⟩ 97 =
      decryptByteSpec ⟨0x12345678, 0x23456789, 0x34567890⟩ 97 ∧
    (decryptByte ⟨0x12345678, 0x23456789, 0x34567890⟩ 97).2 =
      updateKeys ⟨0x12345678, 0x23456789, 0x34567890⟩
        (decryptByte ⟨0x12345678, 0x23456789, 0x34567890⟩ 97).1 :=
  ⟨(c5_cipher ⟨0x12345678, 0x23456789, 0x34567890⟩ 97 (by decide)).2.1 [97],
    (c5_cipher ⟨0x12345678, 0x23456789, 0x34567890⟩ 97 (by decide)).2.2.1,
    (c5_cipher ⟨0x12345678, 0x23456789, 0x34567890⟩ 97 (by decide)).2.2.2.1,
    (c5_cipher ⟨0x12345678, 0x23456789, 0x34567890⟩ 97 (by decide)).2.2.2.2⟩

theorem take4_byteAt (d1 d2 : Bytes) (ht : d1.take 4 = d2.take 4) (i : Nat)
    (hi : i < 4) : byteAt d1 i = byteAt d2 i := by
  unfold byteAt List.getD
  rw [← List.get?_take hi (l := d1), ht, List.get?_take hi]

/-- Claim C8: confirmed.  `isProbablyZipFile` returns true iff the input has at
least 4 bytes and its first four bytes, as a little-endian 32-bit value,
equal the local-file-header magic `0x04034B50`; no byte beyond the first
four influences the result. -/
theorem c8_looksLikeArchive (d1 d2 : Bytes) :
    (isProbablyZipFile d1 = true ↔ 4 ≤ d1.length ∧ getUint32 d1 0 = lfhSignature) ∧
    (4 ≤ d1.length → 4 ≤ d2.length → d1.take 4 = d2.take 4 →
      isProbablyZipFile d1 = isProbablyZipFile d2) := by
  constructor
  · unfold isProbablyZipFile
    split
    · rename_i hlt
      simp only [Bool.false_eq_true, false_iff, not_and]
      intro h4
      omega
    · rename_i hge
      simp only [beq_iff_eq]
      constructor
      · intro h
        exact ⟨by omega, h⟩
      · exact fun h => h.2
  · intro h1 h2 ht
    have hg : getUint32 d1 0 = getUint32 d2 0 := by
      unfold getUint32
      rw [take4_byteAt d1 d2 ht (0 + 3) (by omega),
        take4_byteAt d1 d2 ht (0 + 2) (by omega),
        take4_byteAt d1 d2 ht (0 + 1) (by omega),
        take4_byteAt d1 d2 ht 0 (by omega)]
    unfold isProbablyZipFile
    rw [if_neg (by omega), if_neg (by omega), hg]

/-- Witness for `c8_looksLikeArchive`: two buffers sharing the magic prefix
but differing afterwards classify identically. -/
theorem c8_looksLikeArchive_witness :
    isProbablyZipFile [0x50, 0x4B, 0x03, 0x04] =
      isProbablyZipFile [0x50, 0x4B, 0x03, 0x04, 99] :=
  (c8_looksLikeArchive [0x50, 0x4B, 0x03, 0x04] [0x50, 0x4B, 0x03, 0x04, 99]).2
    (by decide) (by decide) (by decide)

/-- Claim C10: confirmed.  With the (reachable, via the dynamic single-symbol
escape) one-entry Huffman table `c10codes`, the all-ones bit pattern matches
no symbol within 15 bits: `fnDecode` returns JS `null` (`none`) rather than
an error, and one iteration of the `fnInflateHuffmann` loop on that result
behaves as a literal (`null < 256`), writing byte 0 at the output cursor and
continuing the loop — the over-long code itself is never reported corrupt. -/
theorem c10_null_literal (fuel : Nat) (ost : OutSt)
    (h : ost.outCnt < ost.outBuf.length) :
    fnDecode c10data 2 c10codes ⟨0, 0, 0⟩ = .ok (none, ⟨2, 1, 1⟩) ∧
    fnInflateHuffmannGo c10data 2 c10codes c10codes (fuel + 1) ⟨0, 0, 0⟩ ost =
      fnInflateHuffmannGo c10data 2 c10codes c10codes fuel ⟨2, 1, 1⟩
        ⟨ost.outCnt + 1, outSet ost.outBuf ost.outCnt 0⟩ ∧
    (outSet ost.outBuf ost.outCnt 0).getD ost.outCnt 0 = 0 := by
  refine ⟨by decide, rfl, ?_⟩
  unfold outSet
  rw [if_pos h, List.getD_eq_getElem _ _ (by simpa using h)]
  exact List.getElem_set_self (by simpa using h)

/-- Witness for `c10_null_literal` with a one-byte output buffer. -/
theorem c10_null_literal_witness :
    fnDecode c10data 2 c10codes ⟨0, 0, 0⟩ = .ok (none, ⟨2, 1, 1⟩) ∧
    fnInflateHuffmannGo c10data 2 c10codes c10codes 1 ⟨0, 0, 0⟩ ⟨0, [7]⟩ =
      fnInflateHuffmannGo c10data 2 c10codes c10codes 0 ⟨2, 1, 1⟩
        ⟨0 + 1, outSet [7] 0 0⟩ ∧
    (outSet [7] 0 0).getD 0 0 = 0 :=
  c10_null_literal 0 ⟨0, [7]⟩ (by decide)

theorem decrypt_ok_parts (data : Bytes) (cdfh : Cdfh) (pw : JSStr) (out : Bytes)
    (h : decrypt data cdfh pw = .ok out) :
    out = (decryptSeq (decryptSeq (initKeys pw)
        ((List.range 12).map (byteAt data))).2 (data.drop 12)).1 ∧
    out.length = data.length - 12 := by
  simp only [decrypt] at h
  by_cases hc : (decryptSeq (initKeys pw)
      ((List.range 12).map (byteAt data))).1.getD 11 0 ≠ checkByteOf cdfh
  · rw [if_pos hc] at h
    cases h
  · rw [if_neg hc] at h
    by_cases h12 : data.length < 12
    · rw [if_pos h12] at h
      cases h
    · rw [if_neg h12] at h
      injection h with h'
      subst h'
      exact ⟨rfl, by simp [decryptSeq_length]⟩

/-- Claim C4: confirmed.  For ciphertext of length ≥ 12, `decrypt` first decrypts
the 12-byte verification header and succeeds exactly when decrypted byte 11
equals the check value (`checkByteOf`: top byte of the modification time
when flag bit 3 is set, else top byte of the stored CRC-32); on mismatch it
fails with WrongPassword and produces no output; on success the output is
the decrypted remainder, of length `data.length - 12`. -/
theorem c4_decrypt_check (data : Bytes) (cdfh : Cdfh) (pw : JSStr)
    (hlen : 12 ≤ data.length) :
    (exceptOk (decrypt data cdfh pw) = true ↔
      (decryptSeq (initKeys pw) ((List.range 12).map (byteAt data))).1.getD 11 0 =
        checkByteOf cdfh) ∧
    ((decryptSeq (initKeys pw) ((List.range 12).map (byteAt data))).1.getD 11 0 ≠
        checkByteOf cdfh →
      decrypt data cdfh pw = .error .passwordMismatch) ∧
    (∀ out, decrypt data cdfh pw = .ok out →
      out = (decryptSeq (decryptSeq (initKeys pw)
          ((List.range 12).map (byteAt data))).2 (data.drop 12)).1 ∧
      out.length = data.length - 12) := by
  refine ⟨?_, ?_, fun out h => decrypt_ok_parts data cdfh pw out h⟩
  · by_cases hc : (decryptSeq (initKeys pw)
        ((List.range 12).map (byteAt data))).1.getD 11 0 = checkByteOf cdfh
    · simp only [hc, iff_true, decrypt]
      rw [if_neg (by simp [hc]), if_neg (by omega)]
      rfl
    · simp only [hc, iff_false, decrypt]
      rw [if_pos (by simpa using hc)]
      simp [exceptOk]
  · intro hc
    simp only [decrypt]
    rw [if_pos (by simpa using hc)]

/-- Witness for `c4_decrypt_check`: the concrete encrypted entry `c9data`
(13 bytes) under password "a". -/
theorem c4_decrypt_check_witness :
    exceptOk (decrypt c9data c9cdfh [97]) = true ↔
      (decryptSeq (initKeys [97]) ((List.range 12).map (byteAt c9data))).1.getD 11 0 =
        checkByteOf c9cdfh :=
  (c4_decrypt_check c9data c9cdfh [97] (by decide)).1

/-- Claim C7: confirmed.  `readBinaryData` fails EntryNotFound when the name is
absent, PasswordRequired when the entry is encrypted (flag bit 0) and no
password is supplied, UnsupportedFeature when the compression method is
neither 0 nor 8 (with or without a successfully decrypted payload);
otherwise stored entries are returned unchanged and deflated entries are
inflated. -/
theorem c7_readEntry (data : Bytes) (table : List (JSStr × Cdfh)) (name : JSStr)
    (pw : Option JSStr) :
    (tableLookup table name = none →
      readBinaryData data table name pw = .error .fileNotFound) ∧
    (∀ c, tableLookup table name = some c → c.flag &&& 1 = 1 → pw = none →
      readBinaryData data table name pw = .error .passwordRequired) ∧
    (∀ c, tableLookup table name = some c → c.flag &&& 1 ≠ 1 →
      c.compressionMethod ≠ 0 → c.compressionMethod ≠ 8 →
      readBinaryData data table name pw = .error .compressionMethodNotSupported) ∧
    (∀ c p dec, tableLookup table name = some c → c.flag &&& 1 = 1 →
      pw = some p → p ≠ [] →
      decrypt (slice data c.dataStart c.compressedSize) c p = .ok dec →
      c.compressionMethod ≠ 0 → c.compressionMethod ≠ 8 →
      readBinaryData data table name pw = .error .compressionMethodNotSupported) ∧
    (∀ c, tableLookup table name = some c → c.flag &&& 1 ≠ 1 →
      c.compressionMethod = 0 →
      readBinaryData data table name pw = .ok (slice data c.dataStart c.compressedSize)) ∧
    (∀ c, tableLookup table name = some c → c.flag &&& 1 ≠ 1 →
      c.compressionMethod = 8 →
      readBinaryData data table name pw =
        inflate (slice data c.dataStart c.compressedSize) 0 c.compressedSize c.size) := by
  refine ⟨?_, ?_, ?_, ?_, ?_, ?_⟩
  · intro h
    simp [readBinaryData, h]
  · intro c hl he hpw
    subst hpw
    have he' : c.flag % 2 = 1 := by simpa [Nat.and_one_is_mod] using he
    simp [readBinaryData, hl, he']
  · intro c hl he h0 h8
    have he' : ¬c.flag % 2 = 1 := by simpa [Nat.and_one_is_mod] using he
    simp [readBinaryData, hl, he', h0, h8]
  · intro c p dec hl he hpw hne hd h0 h8
    subst hpw
    have he' : c.flag % 2 = 1 := by simpa [Nat.and_one_is_mod] using he
    simp [readBinaryData, hl, he', hne, hd, h0, h8]
  · intro c hl he h0
    have he' : ¬c.flag % 2 = 1 := by simpa [Nat.and_one_is_mod] using he
    simp [readBinaryData, hl, he', h0]
  · intro c hl he h8
    have he' : ¬c.flag % 2 = 1 := by simpa [Nat.and_one_is_mod] using he
    simp [readBinaryData, hl, he', h8]

/-- Witness for `c7_readEntry`: an empty table yields EntryNotFound. -/
theorem c7_readEntry_witness :
    readBinaryData [] [] [97] none = .error .fileNotFound :=
  (c7_readEntry [] [] [97] none).1 (by decide)

/-- Claim C9: confirmed (implicit claim).  For an encrypted deflated entry,
`readBinaryData` passes the *decrypted* buffer (12 bytes shorter than the
compressed slice) to `inflate` together with the *original*
`compressedSize` as the input bound, so the bit reader's `inCnt === bufEnd`
check cannot fire at the decrypted buffer's true end: a read past the end
consumes the embedding's default byte value 0 (JS `undefined` coerced by
`|`), not a data-overflow error. -/
theorem c9_inflate_bound (data : Bytes) (table : List (JSStr × Cdfh))
    (name : JSStr) (c : Cdfh) (p : JSStr) (dec : Bytes)
    (hl : tableLookup table name = some c) (he : c.flag &&& 1 = 1)
    (hp : p ≠ []) (hm : c.compressionMethod = 8)
    (hd : decrypt (slice data c.dataStart c.compressedSize) c p = .ok dec) :
    readBinaryData data table name (some p) = inflate dec 0 c.compressedSize c.size ∧
    dec.length = (slice data c.dataStart c.compressedSize).length - 12 ∧
    (∀ need fuel out inCnt bitCnt, dec.length ≤ inCnt → inCnt ≠ c.compressedSize →
      bitCnt < need →
      fnBitsGo dec c.compressedSize need (fuel + 1) out inCnt bitCnt =
        fnBitsGo dec c.compressedSize need fuel out (inCnt + 1) (bitCnt + 8)) := by
  refine ⟨?_, (decrypt_ok_parts _ _ _ _ hd).2, ?_⟩
  · have he' : c.flag % 2 = 1 := by simpa [Nat.and_one_is_mod] using he
    simp [readBinaryData, hl, he', hp, hd, hm]
  · intro need fuel out inCnt bitCnt hpast hne hlt
    have hzero : byteAt dec inCnt = 0 := List.getD_eq_default _ _ hpast
    conv_lhs => rw [fnBitsGo]
    rw [if_pos hlt, if_neg hne, hzero, Nat.zero_shiftLeft, Nat.or_zero]

/-- Witness for `c9_inflate_bound`: the concrete encrypted deflated entry
`c9data` whose decrypted payload is the single byte `0x03`. -/
theorem c9_inflate_bound_witness :
    readBinaryData c9data c9table [98] (some [97]) = inflate [3] 0 13 0 :=
  (c9_inflate_bound c9data c9table [98] c9cdfh [97] [3] (by decide) (by decide)
    (by decide) (by decide) (by decide)).1

theorem shl_lt_two_pow (b s n : Nat) (hb : b < 2 ^ n) :
    b <<< s < 2 ^ (n + s) := by
  rw [Nat.shiftLeft_eq, Nat.pow_add]
  exact (Nat.mul_lt_mul_right (Nat.two_pow_pos s)).mpr hb

/-- A 32-bit read whose top byte lies beyond the buffer is below `2^24`. -/
theorem getUint32_top_oob_lt (data : Bytes) (hb : ∀ b ∈ data, b < 256)
    (i : Nat) (hoob : data.length ≤ i + 3) : getUint32 data i < 2 ^ 24 := by
  unfold getUint32
  rw [show byteAt data (i + 3) = 0 from List.getD_eq_default _ _ hoob,
    Nat.zero_shiftLeft]
  have h2 : byteAt data (i + 2) <<< 16 < 2 ^ 24 :=
    shl_lt_two_pow _ _ 8 (byteAt_lt data hb (i + 2))
  have h1 : byteAt data (i + 1) <<< 8 < 2 ^ 24 :=
    lt_trans (shl_lt_two_pow _ _ 8 (byteAt_lt data hb (i + 1))) (by norm_num)
  have h0 : byteAt data i < 2 ^ 24 :=
    lt_trans (byteAt_lt data hb i) (by norm_num)
  exact Nat.or_lt_two_pow
    (Nat.or_lt_two_pow (Nat.or_lt_two_pow (Nat.two_pow_pos 24) h2) h1) h0

/-- Claim C6 (amended): confirmed for the amended statement.  All header reads
are total (out-of-range indexing yields 0), and when the central-directory
walk reaches an entry whose four signature bytes are not all inside the
buffer, the parse fails with `badCdfhSignature` ("Bad CDFH signature") — a
truncated header that still retains its signature bytes may instead fail
`entryNameMissing` (see `c6_counterexample`). -/
theorem c6_truncated (data : Bytes) (k offset : Nat) (acc : List (JSStr × Cdfh))
    (hb : ∀ b ∈ data, b < 256) (hoff : data.length < offset + 4) :
    processEntries data (k + 1) offset acc = .error .badCdfhSignature := by
  have hsig : (readCdfh data offset).signature ≠ cdfhSignature := by
    show getUint32 data offset ≠ cdfhSignature
    have := getUint32_top_oob_lt data hb offset (by omega)
    unfold cdfhSignature
    omega
  simp [processEntries, hsig]

/-- Witness for `c6_truncated`: the empty buffer with entry count 1. -/
theorem c6_truncated_witness :
    processEntries [] 1 0 [] = .error .badCdfhSignature :=
  c6_truncated [] 0 0 [] (by simp) (by simp)

/-- The `dataStart` formula actually computed by the walk, for every entry it
adds: local-header offset + 30 + *decoded-name length* + LFH extra length. -/
theorem processEntries_dataStart (data : Bytes) (k : Nat) :
    ∀ (offset : Nat) (acc table : List (JSStr × Cdfh)),
    (∀ p ∈ acc, p.2.dataStart =
      p.2.localOffset + 30 + p.2.name.length + getUint16 data (p.2.localOffset + 28)) →
    processEntries data k offset acc = .ok table →
    ∀ p ∈ table, p.2.dataStart =
      p.2.localOffset + 30 + p.2.name.length + getUint16 data (p.2.localOffset + 28) := by
  induction k with
  | zero =>
    intro offset acc table hacc h
    injection h with h'
    subst h'
    exact hacc
  | succ n ih =>
    intro offset acc table hacc h
    rw [processEntries] at h
    by_cases h1 : (readCdfh data offset).signature ≠ cdfhSignature
    · rw [if_pos h1] at h
      cases h
    · rw [if_neg h1] at h
      by_cases h2 : (readCdfh data offset).fileNameLength = 0
      · rw [if_pos h2] at h
        cases h
      · rw [if_neg h2] at h
        by_cases h3 : (readCdfh data offset).flag &&& 0x40 = 0x40
        · rw [if_pos h3] at h
          cases h
        · rw [if_neg h3] at h
          by_cases h4 : (readCdfh data offset).flag &&& 0x2000 = 0x2000
          · rw [if_pos h4] at h
            cases h
          · rw [if_neg h4] at h
            refine ih _ _ _ ?_ h
            intro p hp
            rcases List.mem_append.mp hp with hmem | hmem
            · exact hacc p hmem
            · rcases List.mem_singleton.mp hmem with rfl
              rfl

/-- Claim C3 (amended): for every entry the parsed directory reports,
`dataStart = localOffset + 30 + (decoded name).length + lfhExtraFieldLength`,
where the name length is the *decoded* JS string's length (UTF-16 code
units), not the `fileNameLength` byte count of the central header (see
`c3_counterexample` for a name where the two differ). -/
theorem c3_dataStart (data : Bytes) (table : List (JSStr × Cdfh))
    (h : readZipDirectory data = .ok table) :
    ∀ p ∈ table, p.2.dataStart =
      p.2.localOffset + 30 + p.2.name.length + getUint16 data (p.2.localOffset + 28) := by
  unfold readZipDirectory at h
  rcases he : findEocd data with _ | e
  · rw [he] at h
    cases h
  · rw [he] at h
    exact processEntries_dataStart data _ _ _ _ (by simp) h

/-- Witness for `c3_dataStart`: the `c3buf` archive's single entry. -/
theorem c3_dataStart_witness :
    c3cdfh.dataStart = c3cdfh.localOffset + 30 + c3cdfh.name.length +
      getUint16 c3buf (c3cdfh.localOffset + 28) :=
  c3_dataStart c3buf c3table (by decide) ([0xE4], c3cdfh) (by simp [c3table])

/-! ### Output-length invariance of the inflate engine (claim C2) -/

theorem storedCopy_outLen (data : Bytes) :
    ∀ (len inCnt : Nat) (ost : OutSt),
    (storedCopy data len inCnt ost).2.outBuf.length = ost.outBuf.length := by
  intro len
  induction len with
  | zero => intro inCnt ost; rfl
  | succ n ih =>
    intro inCnt ost
    rw [storedCopy, ih]
    exact outSet_length _ _ _

theorem lzCopy_outLen (dist : Nat) :
    ∀ (len : Nat) (ost : OutSt),
    (lzCopy dist len ost).outBuf.length = ost.outBuf.length := by
  intro len
  induction len with
  | zero => intro ost; rfl
  | succ n ih =>
    intro ost
    rw [lzCopy, ih]
    exact outSet_length _ _ _

theorem lzCopyNaN_outLen :
    ∀ (len : Nat) (ost : OutSt),
    (lzCopyNaN len ost).outBuf.length = ost.outBuf.length := by
  intro len
  induction len with
  | zero => intro ost; rfl
  | succ n ih =>
    intro ost
    rw [lzCopyNaN, ih]
    exact outSet_length _ _ _

theorem fnInflateStored_outLen (data : Bytes) (bufEnd : Nat) (st : BitSt)
    (ost : OutSt) :
    okOutLen (fnInflateStored data bufEnd st ost) ost.outBuf.length := by
  rw [fnInflateStored]
  split
  · exact trivial
  · dsimp only
    split
    · exact trivial
    · split
      · exact trivial
      · exact storedCopy_outLen _ _ _ _

theorem fnBackref_len (data : Bytes) (bufEnd : Nat) (dc : CodeT) (s : Nat)
    (st : BitSt) (ost : OutSt) :
    okBrLen (fnBackref data bufEnd dc s st ost) ost.outBuf.length := by
  rw [fnBackref]
  split
  · exact trivial
  · split
    · exact trivial
    · dsimp only
      split
      · exact trivial
      · split
        · split
          · exact trivial
          · split
            · exact trivial
            · exact lzCopy_outLen _ _ _
        · exact lzCopyNaN_outLen _ _

set_option maxRecDepth 100000 in
theorem huffStep_len (data : Bytes) (bufEnd : Nat) (lc dc : CodeT)
    (st : BitSt) (ost : OutSt) :
    okStepLen (huffStep data bufEnd lc dc st ost) ost.outBuf.length := by
  rw [huffStep]
  split
  · exact trivial
  · rename_i p heq
    dsimp only
    have host1 : (if toNum p.1 < 256 then
        (⟨ost.outCnt + 1, outSet ost.outBuf ost.outCnt (toNum p.1)⟩ : OutSt)
      else ost).outBuf.length = ost.outBuf.length := by
      split
      · exact outSet_length _ _ _
      · rfl
    split
    · have hbr := fnBackref_len data bufEnd dc (toNum p.1 - 257) p.2
        (if toNum p.1 < 256 then
          (⟨ost.outCnt + 1, outSet ost.outBuf ost.outCnt (toNum p.1)⟩ : OutSt)
        else ost)
      split
      · exact trivial
      · rename_i q heq2
        rw [heq2] at hbr
        simp only [okBrLen] at hbr
        rw [host1] at hbr
        split
        · simpa [okStepLen] using hbr
        · simpa [okStepLen] using hbr
    · split
      · simpa [okStepLen] using host1
      · simpa [okStepLen] using host1

theorem fnInflateHuffmannGo_outLen (data : Bytes) (bufEnd : Nat) (lc dc : CodeT) :
    ∀ (fuel : Nat) (st : BitSt) (ost : OutSt),
    okOutLen (fnInflateHuffmannGo data bufEnd lc dc fuel st ost) ost.outBuf.length := by
  intro fuel
  induction fuel with
  | zero => intro st ost; exact trivial
  | succ n ih =>
    intro st ost
    rw [fnInflateHuffmannGo]
    have hs := huffStep_len data bufEnd lc dc st ost
    split
    · exact trivial
    · rename_i q heq
      rw [heq] at hs
      cases q with
      | inl c =>
        simp only [okStepLen] at hs
        have hrec := ih c.1 c.2
        rw [hs] at hrec
        exact hrec
      | inr d => simpa [okStepLen, okOutLen] using hs

theorem inflateBlock_outLen (data : Bytes) (bufEnd ty : Nat) (st : BitSt)
    (ost : OutSt) :
    okOutLen (inflateBlock data bufEnd ty st ost) ost.outBuf.length := by
  rw [inflateBlock]
  split
  · exact fnInflateStored_outLen _ _ _ _
  · split
    · exact fnInflateHuffmannGo_outLen _ _ _ _ _ _ _
    · split
      · split
        · exact trivial
        · exact fnInflateHuffmannGo_outLen _ _ _ _ _ _ _
      · exact trivial

theorem inflateGo_outLen (data : Bytes) (bufEnd : Nat) :
    ∀ (fuel : Nat) (st : BitSt) (ost : OutSt),
    okLen1 (inflateGo data bufEnd fuel st ost) ost.outBuf.length := by
  intro fuel
  induction fuel with
  | zero => intro st ost; exact trivial
  | succ n ih =>
    intro st ost
    rw [inflateGo]
    split
    · exact trivial
    · rename_i p1 heq1
      split
      · exact trivial
      · rename_i p2 heq2
        have hb := inflateBlock_outLen data bufEnd p2.1 p2.2 ost
        split
        · exact trivial
        · rename_i b heqb
          rw [heqb] at hb
          obtain ⟨b1, b2⟩ := b
          simp only [okOutLen] at hb
          split
          · exact hb
          · have hrec := ih b1 b2
            rw [hb] at hrec
            exact hrec

/-- Claim C2 (amended): the output buffer is pre-sized to the declared size and
never grows — but writes past it are *silently dropped* rather than raising
CorruptStream (see `c2_counterexample`): whenever `inflate` succeeds its
result has exactly `finalSize` bytes, however much output the stream
produced. -/
theorem c2_inflate_length (data : Bytes) (offset cs fs : Nat) (out : List Nat)
    (h : inflate data offset cs fs = .ok out) : out.length = fs := by
  simp only [inflate] at h
  rcases hg : inflateGo data (offset + cs) (8 * (offset + cs) + 8) ⟨offset, 0, 0⟩
      ⟨0, List.replicate fs 0⟩ with e | ost
  · rw [hg] at h
    cases h
  · rw [hg] at h
    injection h with h'
    subst h'
    have hi := inflateGo_outLen data (offset + cs) (8 * (offset + cs) + 8)
      ⟨offset, 0, 0⟩ ⟨0, List.replicate fs 0⟩
    rw [hg] at hi
    simpa [okLen1] using hi

/-- Witness for `c2_inflate_length` on the stored-block stream. -/
theorem c2_inflate_length_witness : ([0x41] : List Nat).length = 1 :=
  c2_inflate_length c2data 0 6 1 [0x41] (by decide)

end GPXmap
